import Mathlib

/-!
Verification of the trading-automation core of the ai-stock-trading backend.

The Python sources are shallowly embedded over exact rational arithmetic:
prices, balances and thresholds become `ℚ`, share counts become `ℤ`,
wall-clock instants become `ℕ`. Stateful methods become explicit
state-passing functions; fallible calls return sum types mirroring the
exception classes the source raises; external responses (HTTP bodies,
broker envelopes) become inductive data the functions branch on exactly
as the source's handlers do.
-/

namespace AIStock

/-- Python's `int(q)` applied to a rational: truncation toward zero
(floor for non-negative arguments, ceiling for negative ones). -/
def pyInt (q : ℚ) : ℤ := if 0 ≤ q then ⌊q⌋ else ⌈q⌉

/-- The rolling-history update every strategy uses
(`strategies.py`, e.g. lines 30-32): append the new price, then pop the
oldest single entry when the length exceeds the bound. -/
def pushBounded (bound : ℕ) (l : List ℚ) (p : ℚ) : List ℚ :=
  let l2 := l ++ [p]
  if bound < l2.length then l2.drop 1 else l2

/-- `sum(prices[-n:]) / n`: the average of the last `n` entries
(the whole list when it is shorter than `n`, as a Python slice does). -/
def trailingAvg (n : ℕ) (l : List ℚ) : ℚ :=
  (l.drop (l.length - n)).sum / (n : ℚ)

/-! ## MovingAverageCrossoverStrategy (`strategies.py` lines 9-79) -/

/-- Configuration of `MovingAverageCrossoverStrategy.__init__`:
`short_period` (default 5) and `long_period` (default 20). -/
structure MAConfig where
  short_period : ℕ
  long_period : ℕ
deriving DecidableEq

/-- The strategy instance's mutable `price_history` list. -/
structure MAState where
  price_history : List ℚ
deriving DecidableEq

/-- `MovingAverageCrossoverStrategy.should_buy` (lines 23-46): append the
current price to the history bounded by `long_period`; with a full window,
fire when the short moving average is above the long one and the previous
short average is at-or-below the previous long average, where the
"previous" averages are recomputed from the bounded history and fall back
to the current ones when the history is not longer than the period. -/
def MovingAverageCrossoverStrategy.should_buy (cfg : MAConfig) (st : MAState)
    (current_price : ℚ) : Bool × MAState :=
  if current_price ≤ 0 then (false, st)
  else
    let h := pushBounded cfg.long_period st.price_history current_price
    if h.length < cfg.long_period then (false, ⟨h⟩)
    else
      let short_ma := trailingAvg cfg.short_period h
      let long_ma := trailingAvg cfg.long_period h
      let prev_short_ma :=
        if cfg.short_period < h.length then trailingAvg cfg.short_period h.dropLast
        else short_ma
      let prev_long_ma :=
        if cfg.long_period < h.length then trailingAvg cfg.long_period h.dropLast
        else long_ma
      (decide (long_ma < short_ma) && decide (prev_short_ma ≤ prev_long_ma), ⟨h⟩)

/-- Feed a price sequence to `should_buy` from an empty history, returning
the per-evaluation results (the engine calls `should_buy` once per cycle). -/
def run_should_buy (cfg : MAConfig) (prices : List ℚ) : List Bool :=
  (prices.foldl
    (fun (acc : List Bool × MAState) p =>
      let r := MovingAverageCrossoverStrategy.should_buy cfg acc.2 p
      (acc.1 ++ [r.1], r.2))
    ([], ⟨[]⟩)).1

/-- `calculate_buy_quantity` as implemented identically by all six strategy
variants (`strategies.py` lines 66-71, 238-242, 317-321, 431-435, 506-510,
566-570): `max(1, int(available_balance * allocation_ratio / current_price))`,
with `allocation_ratio` read from the configuration (defaults 0.1-0.15
depending on the variant). -/
def calculate_buy_quantity (allocation_ratio available_balance current_price : ℚ) : ℤ :=
  max 1 (pyInt (available_balance * allocation_ratio / current_price))

/-! ## RSIStrategy.calculate_rsi (`strategies.py` lines 98-126) -/

/-- `RSIStrategy.calculate_rsi`: 50 with fewer than `period + 1` prices;
otherwise gains/losses of consecutive differences, averaged over the last
`period` entries; 100 when the loss average is zero; else
`100 - 100 / (1 + avg_gain / avg_loss)`. -/
def calculate_rsi (period : ℕ) (prices : List ℚ) : ℚ :=
  if prices.length < period + 1 then 50
  else
    let changes := List.zipWith (fun a b => b - a) prices prices.tail
    let gains := changes.map fun c => if 0 < c then c else 0
    let losses := changes.map fun c => if 0 < c then 0 else -c
    if gains.length < period then 50
    else
      let avg_gain := (gains.drop (gains.length - period)).sum / (period : ℚ)
      let avg_loss := (losses.drop (losses.length - period)).sum / (period : ℚ)
      if avg_loss = 0 then 100
      else 100 - 100 / (1 + avg_gain / avg_loss)

/-! ## MomentumStrategy (`strategies.py` lines 444-516) -/

/-- Configuration of `MomentumStrategy.__init__`: `period` (default 10) and
`momentum_threshold` (default 0.05). -/
structure MomentumConfig where
  period : ℕ
  momentum_threshold : ℚ
deriving DecidableEq

/-- The momentum strategy's mutable `price_history` list. -/
structure MomentumState where
  price_history : List ℚ
deriving DecidableEq

/-- `MomentumStrategy.calculate_momentum` (lines 458-470): the relative
change from `prices[-period-1]` to `prices[-1]`, 0 without enough history
or on a zero base price. -/
def calculate_momentum (cfg : MomentumConfig) (prices : List ℚ) : ℚ :=
  if prices.length < cfg.period + 1 then 0
  else
    let current_price := prices.getLast?.getD 0
    let past_price := (prices.get? (prices.length - cfg.period - 1)).getD 0
    if past_price = 0 then 0
    else (current_price - past_price) / past_price

/-- `MomentumStrategy.should_buy` (lines 472-490): update the history
(bounded by `2 * period`); with enough history, fire when the momentum
exceeds the threshold and the market volume exceeds 80% of `avg_volume`,
where the source computes `avg_volume` as
`sum(self.price_history) / len(self.price_history)` - an average over the
PRICE history (the instance keeps no volume history). -/
def MomentumStrategy.should_buy (cfg : MomentumConfig) (st : MomentumState)
    (current_price volume : ℚ) : Bool × MomentumState :=
  if current_price ≤ 0 then (false, st)
  else
    let h := pushBounded (cfg.period * 2) st.price_history current_price
    if h.length < cfg.period + 1 then (false, ⟨h⟩)
    else
      let momentum := calculate_momentum cfg h
      let avg_volume := if h.isEmpty then 0 else h.sum / (h.length : ℚ)
      (decide (cfg.momentum_threshold < momentum) &&
        decide (avg_volume * (8 / 10) < volume), ⟨h⟩)

/-! ## BaseStrategy signal handlers and StrategyEngine.execute_strategy
(`strategy_engine.py` lines 10-188) -/

/-- A signal's `action` field: "BUY" or "SELL". -/
inductive Action where
  | buy
  | sell
deriving DecidableEq

/-- The market snapshot `StrategyEngine._get_market_data` builds (lines
190-209); only the fields the signal handlers read are modelled. -/
structure MarketData where
  current_price : ℚ
  volume : ℚ
deriving DecidableEq

/-- A signal dictionary as `on_buy_signal`/`on_sell_signal` build it. -/
structure Order where
  action : Action
  stock_code : String
  quantity : ℤ
  price : ℚ
  order_type : String
deriving DecidableEq

/-- A strategy instance as `BaseStrategy` sees it: the abstract methods a
variant implements (stateful, over an opaque state type `σ`) plus the
configuration entries the base-class handlers read. -/
structure StrategyImpl (σ : Type) where
  should_buy : String → MarketData → σ → Bool × σ
  should_sell : String → MarketData → σ → Bool × σ
  calculate_buy_quantity : String → ℚ → ℚ → ℤ
  calculate_buy_price : String → MarketData → ℚ
  calculate_sell_price : String → MarketData → ℚ
  available_balance : ℚ
  order_type : String
  max_sell_quantity : Option ℤ

/-- `BaseStrategy.on_buy_signal` (lines 56-86): no signal unless
`should_buy` holds, the current price is positive and the computed
quantity is positive; otherwise a BUY order at the strategy's price. -/
def on_buy_signal {σ : Type} (s : StrategyImpl σ) (stock_code : String)
    (md : MarketData) (st : σ) : Option Order × σ :=
  let r := s.should_buy stock_code md st
  if !r.1 then (none, r.2)
  else if md.current_price ≤ 0 then (none, r.2)
  else
    let quantity := s.calculate_buy_quantity stock_code s.available_balance md.current_price
    let price := s.calculate_buy_price stock_code md
    if quantity ≤ 0 then (none, r.2)
    else (some ⟨.buy, stock_code, quantity, price, s.order_type⟩, r.2)

/-- `BaseStrategy.on_sell_signal` (lines 88-110): no signal unless
`should_sell` holds and the held quantity is positive; otherwise a SELL
order capped by `max_sell_quantity` when configured. -/
def on_sell_signal {σ : Type} (s : StrategyImpl σ) (stock_code : String)
    (md : MarketData) (holding_quantity : ℤ) (st : σ) : Option Order × σ :=
  let r := s.should_sell stock_code md st
  if !r.1 then (none, r.2)
  else if holding_quantity ≤ 0 then (none, r.2)
  else
    let price := s.calculate_sell_price stock_code md
    let quantity := min holding_quantity (s.max_sell_quantity.getD holding_quantity)
    (some ⟨.sell, stock_code, quantity, price, s.order_type⟩, r.2)

/-- `StrategyEngine.execute_strategy` (lines 142-188): nothing for an
inactive/unregistered strategy or a failed market-data fetch; otherwise
the buy signal if any, else the sell signal evaluated against a held
quantity of 0 (the engine does not track holdings), else nothing. -/
def execute_strategy {σ : Type} (s : StrategyImpl σ) (is_active : Bool)
    (stock_code : String) (market_data : Option MarketData) (st : σ) :
    Option Order × σ :=
  if !is_active then (none, st)
  else
    match market_data with
    | none => (none, st)
    | some md =>
      let b := on_buy_signal s stock_code md st
      match b.1 with
      | some o => (some o, b.2)
      | none =>
        let sl := on_sell_signal s stock_code md 0 b.2
        match sl.1 with
        | some o => (some o, sl.2)
        | none => (none, sl.2)

/-- A demonstration strategy implementation over the trivial state, used to
exhibit concrete runs of the engine pipeline. -/
def demoImpl : StrategyImpl Unit where
  should_buy := fun _ _ st => (true, st)
  should_sell := fun _ _ st => (true, st)
  calculate_buy_quantity := fun _ _ _ => 5
  calculate_buy_price := fun _ md => md.current_price
  calculate_sell_price := fun _ md => md.current_price
  available_balance := 100
  order_type := "00"
  max_sell_quantity := none

/-! ## AutoTradingScheduler (`scheduler.py` lines 18-245) -/

/-- The scheduler's `schedule_type` field: "interval" or "daily". -/
inductive ScheduleType where
  | interval
  | daily
deriving DecidableEq

/-- One job registered on the APScheduler instance, as
`scheduler.add_job(..., id="auto_trading_job", max_instances=1)` builds
it from the chosen trigger. -/
structure Job where
  id : String
  trigger : ScheduleType × ℤ
  max_instances : ℕ
deriving DecidableEq

/-- The `AutoTradingScheduler` instance state: `is_running`,
`interval_seconds`, `schedule_type`, and the jobs of its (re)created
APScheduler instance. -/
structure SchedulerState where
  is_running : Bool
  interval_seconds : ℤ
  schedule_type : ScheduleType
  jobs : List Job
deriving DecidableEq

/-- What a call to `AutoTradingScheduler.start` does besides returning: the
source either logs the already-running warning and returns, or installs
the job and starts; it raises nothing in either path. -/
inductive StartOutcome where
  | warnedAlreadyRunning
  | started
deriving DecidableEq

/-- `AutoTradingScheduler.start` (lines 28-63): when already running, log a
warning and return with nothing changed; otherwise store the interval and
type, create a fresh APScheduler carrying exactly one
`auto_trading_job` with `max_instances=1`, and mark running. -/
def AutoTradingScheduler.start (st : SchedulerState) (interval_seconds : ℤ)
    (schedule_type : ScheduleType) : SchedulerState × StartOutcome :=
  if st.is_running then (st, .warnedAlreadyRunning)
  else
    ({ is_running := true
       interval_seconds := interval_seconds
       schedule_type := schedule_type
       jobs := [⟨"auto_trading_job", (schedule_type, interval_seconds), 1⟩] },
     .started)

/-- One active strategy's turn inside `_execute_auto_trading`'s strategy
loop (lines 123-234): either the turn hits a `continue` before the order
loop (no stock codes, ranking fetch failure, or registration failure), or
it executes its stock codes and appends `signals` to `all_signals`. -/
inductive StrategyTurn where
  | skipped
  | ran (signals : List Order)

/-- The signal bookkeeping of `AutoTradingScheduler._execute_auto_trading`
(lines 96-245), returning `(all_signals, submitted)`: nothing happens when
the market gate is closed; otherwise each non-skipped strategy turn
appends its signals to `all_signals` and then the order-submission loop
`for signal in all_signals` - nested INSIDE the strategy loop in the
source - places one order per entry of the accumulated list, so
`submitted` records every `place_order` call in order. -/
def execute_auto_trading (market_open : Bool) (turns : List StrategyTurn) :
    List Order × List Order :=
  if !market_open then ([], [])
  else
    turns.foldl
      (fun (acc : List Order × List Order) t =>
        match t with
        | .skipped => acc
        | .ran signals => (acc.1 ++ signals, acc.2 ++ (acc.1 ++ signals)))
      ([], [])

/-- A concrete BUY signal used to exhibit the duplicate-submission run. -/
def demoSignal : Order :=
  ⟨.buy, "005930", 5, 100, "00"⟩

/-! ## KISClient token lifecycle (`kis_client.py` lines 73-456) -/

/-- The client's in-memory token fields: `access_token` and
`token_expires_at`. -/
structure TokenState where
  access_token : Option String
  token_expires_at : Option ℕ
deriving DecidableEq

/-- The `valid-date` entry of the dated token file as
`_load_token_from_file` sees it: present and parseable, present but
unparseable, or missing from the YAML mapping. -/
inductive DiskDate where
  | expiresAt (t : ℕ)
  | badFormat
  | missing
deriving DecidableEq

/-- The dated token file's content when it exists and carries a `token`
key (`none` at the call site models a missing/corrupt file). -/
structure DiskToken where
  token : String
  valid_date : DiskDate
deriving DecidableEq

/-- `KISClient.is_token_valid` (lines 416-420): both fields set and the
current time strictly before the expiry. -/
def is_token_valid (st : TokenState) (now : ℕ) : Bool :=
  match st.access_token, st.token_expires_at with
  | some _, some e => decide (now < e)
  | _, _ => false

/-- `KISClient._load_token_from_file` (lines 85-121): nothing without a
file or token key; with a parseable `valid-date` the token is returned
and installed in memory only while the date is still in the future; an
unparseable date yields nothing; a missing date returns the token without
touching the in-memory fields. -/
def load_token_from_file (disk : Option DiskToken) (st : TokenState) (now : ℕ) :
    Option String × TokenState :=
  match disk with
  | none => (none, st)
  | some d =>
    match d.valid_date with
    | .expiresAt v =>
      if now < v then (some d.token, ⟨some d.token, some v⟩) else (none, st)
    | .badFormat => (none, st)
    | .missing => (some d.token, st)

/-- The broker's answer to one `/oauth2/tokenP` issuance request, as
`get_access_token` classifies it: success (token, lifetime, and the
optional `access_token_token_expired` stamp written to the file), an HTTP
403 carrying the 1-per-minute rate-limit envelope (`EGW00133`), an HTTP
403 with any other or unparseable body, a connection failure, or another
HTTP error status. -/
inductive IssueResponse where
  | success (token : String) (expires_in : ℕ) (file_expiry : Option ℕ)
  | successNoToken
  | rateLimited403
  | invalidCredentials403
  | connectionFailure
  | otherHttpError (status : ℕ)
deriving DecidableEq

/-- The exception classes `get_access_token`/`ensure_token` raise:
`rateLimited` and `missingCredentials` and `badResponse` are the
`ValueError`s of lines 275, 323/386 and 341, `authFailed` the
`ValueError` of line 399, the rest re-raised transport errors. -/
inductive TokenError where
  | rateLimited
  | authFailed
  | missingCredentials
  | badResponse
  | connectionFailed
  | httpError (status : ℕ)
deriving DecidableEq

/-- The outcome of a token-manager call: the returned token or the raised
error, the in-memory fields afterwards, the token file afterwards, and
whether an issuance request was actually sent to the broker. -/
structure TokenFetch where
  result : Except TokenError String
  state : TokenState
  disk : Option DiskToken
  issued : Bool

/-- `KISClient.get_access_token` (lines 263-409), under the class-level
token lock: first reuse a file token that leaves the memory state valid;
then fail without credentials; otherwise send the issuance request. On
success the token is installed in memory (expiry `now + expires_in`) and
persisted with the broker's stamp when parseable. On the rate-limit 403
the file token is reused if loadable, else the in-memory token if any,
else the rate-limit `ValueError` is raised. Any other 403 raises the
credential-failure `ValueError`; transport errors re-raise. -/
def get_access_token (has_credentials : Bool) (st : TokenState)
    (disk : Option DiskToken) (now : ℕ) (resp : IssueResponse) : TokenFetch :=
  let loaded := load_token_from_file disk st now
  if loaded.1.isSome && is_token_valid loaded.2 now then
    { result := .ok (loaded.1.getD ""), state := loaded.2, disk := disk, issued := false }
  else if !has_credentials then
    { result := .error .missingCredentials, state := loaded.2, disk := disk, issued := false }
  else
    match resp with
    | .success tok expires_in file_expiry =>
      let st2 : TokenState := ⟨some tok, some (now + expires_in)⟩
      { result := .ok tok, state := st2,
        disk := some ⟨tok, .expiresAt (file_expiry.getD (now + expires_in))⟩,
        issued := true }
    | .successNoToken =>
      { result := .error .badResponse, state := ⟨none, loaded.2.token_expires_at⟩,
        disk := disk, issued := true }
    | .rateLimited403 =>
      let reload := load_token_from_file disk loaded.2 now
      match reload.1 with
      | some t =>
        { result := .ok t, state := { reload.2 with access_token := some t },
          disk := disk, issued := true }
      | none =>
        match loaded.2.access_token with
        | some t => { result := .ok t, state := loaded.2, disk := disk, issued := true }
        | none => { result := .error .rateLimited, state := loaded.2, disk := disk, issued := true }
    | .invalidCredentials403 =>
      { result := .error .authFailed, state := loaded.2, disk := disk, issued := true }
    | .connectionFailure =>
      { result := .error .connectionFailed, state := loaded.2, disk := disk, issued := true }
    | .otherHttpError s =>
      { result := .error (.httpError s), state := loaded.2, disk := disk, issued := true }

/-- `KISClient.ensure_token` (lines 422-456): return the in-memory token
while valid; else return a file token that loads as still valid; else
return the in-memory token even though expired; else issue through
`refresh_token` (= `get_access_token`), where a rate-limit `ValueError`
is retried once against the file and memory before re-raising. -/
def ensure_token (has_credentials : Bool) (st : TokenState)
    (disk : Option DiskToken) (now : ℕ) (resp : IssueResponse) : TokenFetch :=
  if is_token_valid st now && st.access_token.isSome then
    { result := .ok (st.access_token.getD ""), state := st, disk := disk, issued := false }
  else
    let loaded := load_token_from_file disk st now
    if loaded.1.isSome && is_token_valid loaded.2 now then
      { result := .ok (loaded.1.getD ""), state := loaded.2, disk := disk, issued := false }
    else if loaded.2.access_token.isSome then
      { result := .ok (loaded.2.access_token.getD ""), state := loaded.2, disk := disk,
        issued := false }
    else
      let f := get_access_token has_credentials loaded.2 disk now resp
      match f.result with
      | .ok _ =>
        { result := .ok (f.state.access_token.getD ""), state := f.state, disk := f.disk,
          issued := f.issued }
      | .error e =>
        if e = .rateLimited then
          let reload := load_token_from_file f.disk f.state now
          match reload.1 with
          | some t =>
            { result := .ok t, state := { reload.2 with access_token := some t },
              disk := f.disk, issued := f.issued }
          | none =>
            match f.state.access_token with
            | some t => { result := .ok t, state := f.state, disk := f.disk, issued := f.issued }
            | none => { result := .error e, state := f.state, disk := f.disk, issued := f.issued }
        else { result := .error e, state := f.state, disk := f.disk, issued := f.issued }

/-- Whether the dated file holds a token that is still valid now - exactly
the condition under which `_load_token_from_file` both returns a token
and leaves `is_token_valid` true. -/
def disk_valid : Option DiskToken → ℕ → Bool
  | some d, now =>
    match d.valid_date with
    | .expiresAt v => decide (now < v)
    | _ => false
  | none, _ => false

/-! ## KISClient.get_account_balance fallback (`kis_client.py` lines 459-551) -/

/-- The body of an HTTP error response as the handler's `e.response.json()`
parse attempt sees it: a broker error envelope (`rt_cd`, `msg_cd`,
`msg1`) or unparseable content. -/
inductive ErrorBody where
  | envelope (rt_cd msg_cd msg1 : String)
  | unparseable
deriving DecidableEq

/-- How one `_request` call for the balance endpoint ends: an HTTP 200
whose envelope has `rt_cd = "0"`; an HTTP 200 whose envelope is
non-success, raised as a generic `Exception` (lines 175-188); an HTTP
error status surviving the single 401 retry; a connection failure; or a
timeout. -/
inductive RequestOutcome where
  | success (payload : String)
  | brokerRejected (msg_cd msg1 : String)
  | httpError (status : ℕ) (body : ErrorBody)
  | connectionFailure
  | timeout
deriving DecidableEq

/-- What `get_account_balance` gives its caller: the broker payload, the
synthetic `generate_mock_account_balance` payload, or the re-raised
failure. -/
inductive BalanceResult where
  | real (payload : String)
  | mock
  | failedBrokerRejected (msg_cd msg1 : String)
  | failedHttp (status : ℕ)
  | failedConnection
  | failedTimeout
deriving DecidableEq

/-- `KISClient.get_account_balance` (lines 459-551): the payload on
success; a generic broker rejection propagates (no handler catches it);
an HTTP 500 whose body parses as a broker envelope returns mock data when
`USE_MOCK_DATA` is set and otherwise re-raises, while any other HTTP
error status (including 401/403) always re-raises; connection and
timeout failures return mock data exactly when `USE_MOCK_DATA` is set. -/
def get_account_balance (use_mock_data : Bool) (outcome : RequestOutcome) :
    BalanceResult :=
  match outcome with
  | .success p => .real p
  | .brokerRejected mc m1 => .failedBrokerRejected mc m1
  | .httpError status body =>
    if status = 500 then
      match body with
      | .envelope _ _ _ => if use_mock_data then .mock else .failedHttp 500
      | .unparseable => .failedHttp 500
    else .failedHttp status
  | .connectionFailure => if use_mock_data then .mock else .failedConnection
  | .timeout => if use_mock_data then .mock else .failedTimeout

/-! ## Helper lemmas -/

/-- Truncation toward zero agrees with the floor on non-negative inputs. -/
theorem pyInt_of_nonneg (q : ℚ) (h : 0 ≤ q) : pyInt q = ⌊q⌋ :=
  if_pos h

/-- `on_buy_signal` only ever builds BUY orders. -/
theorem on_buy_signal_action {σ : Type} (s : StrategyImpl σ) (stock_code : String)
    (md : MarketData) (st : σ) (o : Order)
    (h : (on_buy_signal s stock_code md st).1 = some o) : o.action = Action.buy := by
  rcases hr : s.should_buy stock_code md st with ⟨b, st2⟩
  unfold on_buy_signal at h
  rw [hr] at h
  cases b with
  | false => simp at h
  | true =>
    simp only [Bool.not_true, Bool.false_eq_true, if_false] at h
    split at h
    · simp at h
    · split at h
      · simp at h
      · cases h
        rfl

/-- `on_sell_signal` yields nothing for a non-positive held quantity. -/
theorem on_sell_signal_nonpos {σ : Type} (s : StrategyImpl σ) (stock_code : String)
    (md : MarketData) (holding_quantity : ℤ) (st : σ) (hq : holding_quantity ≤ 0) :
    (on_sell_signal s stock_code md holding_quantity st).1 = none := by
  rcases hr : s.should_sell stock_code md st with ⟨b, st2⟩
  unfold on_sell_signal
  rw [hr]
  cases b with
  | false => rfl
  | true =>
    simp only [Bool.not_true, Bool.false_eq_true, if_false, if_pos hq]

/-- The consecutive differences of a non-decreasing price list are all
non-negative. -/
theorem zipWith_sub_nonneg_of_chain (l : List ℚ) (h : l.Chain' (· ≤ ·)) :
    ∀ c ∈ List.zipWith (fun a b => b - a) l l.tail, 0 ≤ c := by
  induction l with
  | nil => intro c hc; simp at hc
  | cons a t ih =>
    cases t with
    | nil => intro c hc; simp at hc
    | cons b t2 =>
      intro c hc
      rw [List.chain'_cons] at h
      simp only [List.tail_cons, List.zipWith_cons_cons, List.mem_cons] at hc
      rcases hc with hc | hc
      · rw [hc]
        exact sub_nonneg.mpr h.1
      · exact ih h.2 c (by simpa using hc)

/-- A valid token state holds a token. -/
theorem valid_isSome (st : TokenState) (now : ℕ) (h : is_token_valid st now = true) :
    st.access_token.isSome = true := by
  rcases st with ⟨a, e⟩
  cases a <;> cases e <;> simp_all [is_token_valid]

/-! ## The claims -/

/-- C1: the claim says every signal accumulated in a cycle's signal list is
submitted as an order exactly once. In the source the order-submission
loop `for signal in all_signals` is nested inside the strategy loop
(`scheduler.py` lines 123-234), so a signal produced by an earlier
strategy is submitted again after every later strategy that reaches the
submission loop: with two active strategies - the first producing one BUY
signal, the second running a non-empty stock list and producing none -
the single accumulated signal is placed as an order twice. -/
theorem auto_trading_duplicate_submission :
    execute_auto_trading true [.ran [demoSignal], .ran []] =
      ([demoSignal], [demoSignal, demoSignal]) := by
  norm_num [execute_auto_trading]

/-- C2: `StrategyEngine.execute_strategy` always evaluates the sell side
with a held quantity of 0 and `on_sell_signal` returns nothing for a
non-positive held quantity, so every signal `execute_strategy` returns is
a BUY signal. -/
theorem execute_strategy_only_buy_signals {σ : Type} (s : StrategyImpl σ)
    (is_active : Bool) (stock_code : String) (market_data : Option MarketData)
    (st : σ) (o : Order)
    (h : (execute_strategy s is_active stock_code market_data st).1 = some o) :
    o.action = Action.buy := by
  cases is_active with
  | false => simp [execute_strategy] at h
  | true =>
    cases market_data with
    | none => simp [execute_strategy] at h
    | some md =>
      simp only [execute_strategy, Bool.not_true, Bool.false_eq_true, if_false] at h
      rcases hb : (on_buy_signal s stock_code md st).1 with _ | ob
      · rw [hb] at h
        rw [on_sell_signal_nonpos s stock_code md 0 _ le_rfl] at h
        simp at h
      · rw [hb] at h
        simp only [Prod.fst] at h
        cases h
        exact on_buy_signal_action s stock_code md st o hb

/-- Witness for C2: a concrete run of the engine pipeline in which a
signal is produced, shown to be a BUY signal by the theorem. -/
theorem execute_strategy_only_buy_signals_witness :
    (Order.mk Action.buy "X" 5 10 "00").action = Action.buy :=
  execute_strategy_only_buy_signals demoImpl true "X" (some ⟨10, 0⟩) ()
    ⟨Action.buy, "X", 5, 10, "00"⟩
    (by norm_num [execute_strategy, on_buy_signal, demoImpl])

/-- C3, counterexample: feeding prices 10, 10, 11, 12 to the
moving-average crossover strategy with `short_period = 2`,
`long_period = 3` makes `should_buy` fire on the third AND on the fourth
evaluation, although on the third evaluation the fast average (21/2) was
already strictly above the slow average (31/3) - so the signal re-fires
on an evaluation whose predecessor already had fast above slow,
contradicting the claim's strict-transition characterization. -/
theorem ma_crossover_refires_on_10_10_11_12 :
    run_should_buy ⟨2, 3⟩ [10, 10, 11, 12] = [false, false, true, true] ∧
    trailingAvg 3 [10, 10, 11] < trailingAvg 2 [10, 10, 11] := by
  constructor <;>
    norm_num [run_should_buy, MovingAverageCrossoverStrategy.should_buy, pushBounded,
      trailingAvg]

/-- C3, amended: with a positive price and a full window (the bounded
history never exceeds `long_period` entries, so the recomputed "previous"
long average always coincides with the current one), `should_buy` fires
exactly when the current short average is above the current long average
and the previous-window short average is at-or-below the CURRENT long
average - not the previous long average, so the signal can re-fire while
the short average stays above whenever the long average has risen. -/
theorem ma_crossover_buy_condition_characterization (cfg : MAConfig) (st : MAState)
    (p : ℚ) (hp : 0 < p) (hsl : cfg.short_period < cfg.long_period)
    (hlen : (pushBounded cfg.long_period st.price_history p).length = cfg.long_period) :
    (MovingAverageCrossoverStrategy.should_buy cfg st p).1 =
      (decide (trailingAvg cfg.long_period (pushBounded cfg.long_period st.price_history p) <
          trailingAvg cfg.short_period (pushBounded cfg.long_period st.price_history p)) &&
        decide (trailingAvg cfg.short_period
            (pushBounded cfg.long_period st.price_history p).dropLast ≤
          trailingAvg cfg.long_period (pushBounded cfg.long_period st.price_history p))) := by
  simp only [MovingAverageCrossoverStrategy.should_buy]
  rw [if_neg (not_le.mpr hp)]
  rw [if_neg (by omega)]
  rw [if_pos (by omega), if_neg (by omega)]

/-- Witness for C3's amended theorem at a concrete full-window state. -/
theorem ma_crossover_buy_condition_witness :
    (MovingAverageCrossoverStrategy.should_buy ⟨2, 3⟩ ⟨[10, 10]⟩ 11).1 =
      (decide (trailingAvg 3 (pushBounded 3 [10, 10] 11) <
          trailingAvg 2 (pushBounded 3 [10, 10] 11)) &&
        decide (trailingAvg 2 (pushBounded 3 [10, 10] 11).dropLast ≤
          trailingAvg 3 (pushBounded 3 [10, 10] 11))) :=
  ma_crossover_buy_condition_characterization ⟨2, 3⟩ ⟨[10, 10]⟩ 11 (by norm_num)
    (by norm_num) (by norm_num [pushBounded])

/-- C4: the claim says the momentum strategy buys when the trailing price
change exceeds the threshold and the current volume is at least 80% of
the trailing average volume. The source's `avg_volume` is
`sum(self.price_history) / len(self.price_history)` - an average of
PRICES (no volume history exists) - and the comparison is strict. At
history [100, 110], current price 121, `period = 2`, threshold 5%: the
momentum is 21% > 5%, and a current volume of 50 is above 80% of a
trailing average volume of 60 (48 ≤ 50), so the claim says buy; the code
compares 50 against 80% of the average price (≈ 88.3) and refuses. -/
theorem momentum_volume_gate_uses_price_average :
    (MomentumStrategy.should_buy ⟨2, 1 / 20⟩ ⟨[100, 110]⟩ 121 50).1 = false ∧
    (1 / 20 : ℚ) < calculate_momentum ⟨2, 1 / 20⟩ [100, 110, 121] ∧
    (8 / 10 : ℚ) * 60 ≤ 50 := by
  refine ⟨?_, ?_, ?_⟩ <;>
    norm_num [MomentumStrategy.should_buy, pushBounded, calculate_momentum]

/-- C5, counterexample: an HTTP 500 whose body parses as a well-formed
broker error envelope (the `EGW00203` OPS-routing rejection) IS replaced
by synthetic data by `get_account_balance` when `USE_MOCK_DATA` is set,
contradicting the claim that a broker-rejection failure carried by an
HTTP error response is never substituted. -/
theorem account_balance_mock_on_500_envelope :
    get_account_balance true (.httpError 500 (.envelope "1" "EGW00203" "OPS routing failed")) =
      .mock := by
  norm_num [get_account_balance]

/-- C5, amended: `get_account_balance` substitutes synthetic data exactly
when mock fallback is enabled and the failure is a connectivity failure,
a timeout, or an HTTP 500 whose body parses as a broker error envelope;
authorization failures (401/403 and every other HTTP status) and broker
rejections delivered on HTTP 200 are never substituted. -/
theorem account_balance_mock_substitution_characterization
    (use_mock_data : Bool) (outcome : RequestOutcome) :
    get_account_balance use_mock_data outcome = .mock ↔
      use_mock_data = true ∧
        (outcome = .connectionFailure ∨ outcome = .timeout ∨
          ∃ rt mc m1, outcome = .httpError 500 (.envelope rt mc m1)) := by
  cases outcome with
  | success p => simp [get_account_balance]
  | brokerRejected mc m1 => simp [get_account_balance]
  | httpError status body =>
    by_cases hs : status = 500
    · subst hs
      cases body with
      | envelope rt mc m1 => cases use_mock_data <;> simp [get_account_balance]
      | unparseable => cases use_mock_data <;> simp [get_account_balance]
    · cases use_mock_data <;> simp [get_account_balance, hs]
  | connectionFailure => cases use_mock_data <;> simp [get_account_balance]
  | timeout => cases use_mock_data <;> simp [get_account_balance]

/-- C6, counterexample: with a zero balance (so the computed amount funds
no unit at all) every variant's `calculate_buy_quantity` still returns 1,
not the claimed `floor(available_balance * allocation_ratio / price)`:
the minimum-of-1 floor is unconditional in the source
(`max(1, int(...))`), not applied only when the amount supports a unit. -/
theorem buy_quantity_one_on_zero_balance :
    calculate_buy_quantity (1 / 10) 0 100 = 1 ∧
    ⌊(0 : ℚ) * (1 / 10) / 100⌋ = 0 ∧ ¬ ((100 : ℚ) ≤ 0 * (1 / 10)) := by
  refine ⟨?_, ?_, ?_⟩ <;> norm_num [calculate_buy_quantity, pyInt]

/-- C6, amended: for every allocation ratio ≥ 0, balance ≥ 0 and price
> 0, `calculate_buy_quantity` is `max 1 (floor(balance * ratio / price))`
- the 1-floor applying even when the amount funds no unit - so the result
is an integer, is never below 1 (in particular never negative), and
equals the plain floor whenever `balance * ratio ≥ price`. -/
theorem buy_quantity_amended_formula (allocation_ratio available_balance current_price : ℚ)
    (hr : 0 ≤ allocation_ratio) (hb : 0 ≤ available_balance) (hp : 0 < current_price) :
    calculate_buy_quantity allocation_ratio available_balance current_price =
      max 1 ⌊available_balance * allocation_ratio / current_price⌋ ∧
    1 ≤ calculate_buy_quantity allocation_ratio available_balance current_price ∧
    (current_price ≤ available_balance * allocation_ratio →
      calculate_buy_quantity allocation_ratio available_balance current_price =
        ⌊available_balance * allocation_ratio / current_price⌋) := by
  have hq : 0 ≤ available_balance * allocation_ratio / current_price :=
    div_nonneg (mul_nonneg hb hr) hp.le
  have h1 : calculate_buy_quantity allocation_ratio available_balance current_price =
      max 1 ⌊available_balance * allocation_ratio / current_price⌋ := by
    unfold calculate_buy_quantity
    rw [pyInt_of_nonneg _ hq]
  refine ⟨h1, ?_, ?_⟩
  · rw [h1]
    exact le_max_left _ _
  · intro hge
    have hone : (1 : ℚ) ≤ available_balance * allocation_ratio / current_price :=
      (one_le_div hp).mpr hge
    have hfl : (1 : ℤ) ≤ ⌊available_balance * allocation_ratio / current_price⌋ :=
      Int.le_floor.mpr (by exact_mod_cast hone)
    rw [h1, max_eq_right hfl]

/-- Witness for C6's amended theorem: balance 1000, ratio 1/10, price 50. -/
theorem buy_quantity_amended_formula_witness :
    calculate_buy_quantity (1 / 10) 1000 50 = max 1 ⌊(1000 : ℚ) * (1 / 10) / 50⌋ ∧
    1 ≤ calculate_buy_quantity (1 / 10) 1000 50 ∧
    ((50 : ℚ) ≤ 1000 * (1 / 10) →
      calculate_buy_quantity (1 / 10) 1000 50 = ⌊(1000 : ℚ) * (1 / 10) / 50⌋) :=
  buy_quantity_amended_formula (1 / 10) 1000 50 (by norm_num) (by norm_num) (by norm_num)

/-- C10, counterexample: calling `AutoTradingScheduler.start` on a running
scheduler does not fail with an error - the source logs a warning and
returns normally (its result type, read off the source, has no failure
case at all) - though it does leave the stored interval, mode and job
unchanged. -/
theorem scheduler_start_when_running_no_error :
    AutoTradingScheduler.start
        ⟨true, 60, .interval, [⟨"auto_trading_job", (.interval, 60), 1⟩]⟩ 30 .daily =
      (⟨true, 60, .interval, [⟨"auto_trading_job", (.interval, 60), 1⟩]⟩,
        .warnedAlreadyRunning) := rfl

/-- C10, amended: `start` on a running scheduler is a warning-logging
no-op that leaves the whole state (interval, mode, job list) unaltered
and raises nothing; on a stopped scheduler it transitions to running and
installs exactly one `auto_trading_job` with a concurrency cap
(`max_instances`) of 1. -/
theorem scheduler_start_amended_behavior (st : SchedulerState) (interval_seconds : ℤ)
    (schedule_type : ScheduleType) :
    (st.is_running = true →
      AutoTradingScheduler.start st interval_seconds schedule_type =
        (st, .warnedAlreadyRunning)) ∧
    (st.is_running = false →
      AutoTradingScheduler.start st interval_seconds schedule_type =
        ({ is_running := true, interval_seconds := interval_seconds,
           schedule_type := schedule_type,
           jobs := [⟨"auto_trading_job", (schedule_type, interval_seconds), 1⟩] },
         .started)) := by
  constructor <;> intro h <;> simp [AutoTradingScheduler.start, h]

/-- C9: `calculate_rsi` always yields a value in [0, 100] (the loss-average
branch guards the division, which otherwise has a strictly positive
denominator), and for a monotonically non-decreasing price sequence of
length at least `period + 1` - so every consecutive loss is zero - it
yields exactly 100. -/
theorem rsi_bounds_and_saturation (period : ℕ) (prices : List ℚ) (hper : 1 ≤ period) :
    (0 ≤ calculate_rsi period prices ∧ calculate_rsi period prices ≤ 100) ∧
    (prices.Chain' (· ≤ ·) → period + 1 ≤ prices.length →
      calculate_rsi period prices = 100) := by
  constructor
  · simp only [calculate_rsi]
    split
    · norm_num
    · split
      · norm_num
      · split
        · norm_num
        · rename_i hlen hglen hloss
          set changes := List.zipWith (fun a b => b - a) prices prices.tail with hchg
          set gains := changes.map fun c => if 0 < c then c else 0 with hg
          set losses := changes.map fun c => if 0 < c then 0 else -c with hl
          have hG : 0 ≤ (gains.drop (gains.length - period)).sum / (period : ℚ) := by
            apply div_nonneg _ (by positivity)
            apply List.sum_nonneg
            intro x hx
            have hx2 := List.mem_of_mem_drop hx
            rw [hg, List.mem_map] at hx2
            obtain ⟨c, _, rfl⟩ := hx2
            split <;> simp_all [le_of_lt]
          have hL : 0 ≤ (losses.drop (losses.length - period)).sum / (period : ℚ) := by
            apply div_nonneg _ (by positivity)
            apply List.sum_nonneg
            intro x hx
            have hx2 := List.mem_of_mem_drop hx
            rw [hl, List.mem_map] at hx2
            obtain ⟨c, _, rfl⟩ := hx2
            split
            · exact le_refl 0
            · simp_all [neg_nonneg, le_of_not_lt]
          have hLpos : 0 < (losses.drop (losses.length - period)).sum / (period : ℚ) :=
            lt_of_le_of_ne hL (Ne.symm hloss)
          have hrs : 0 ≤ (gains.drop (gains.length - period)).sum / (period : ℚ) /
              ((losses.drop (losses.length - period)).sum / (period : ℚ)) :=
            div_nonneg hG hLpos.le
          have hd1 : (0 : ℚ) < 1 + (gains.drop (gains.length - period)).sum / (period : ℚ) /
              ((losses.drop (losses.length - period)).sum / (period : ℚ)) := by linarith
          have hub : (100 : ℚ) / (1 + (gains.drop (gains.length - period)).sum / (period : ℚ) /
              ((losses.drop (losses.length - period)).sum / (period : ℚ))) ≤ 100 :=
            div_le_self (by norm_num) (by linarith)
          have hlb : (0 : ℚ) < 100 / (1 + (gains.drop (gains.length - period)).sum / (period : ℚ) /
              ((losses.drop (losses.length - period)).sum / (period : ℚ))) :=
            div_pos (by norm_num) hd1
          constructor <;> linarith
  · intro hchain hlen
    simp only [calculate_rsi]
    rw [if_neg (by omega)]
    have hclen : (List.zipWith (fun a b : ℚ => b - a) prices prices.tail).length =
        prices.length - 1 := by
      rw [List.length_zipWith, List.length_tail]
      omega
    rw [if_neg (by
      rw [List.length_map, hclen]
      omega)]
    have hall := zipWith_sub_nonneg_of_chain prices hchain
    have hzero : ((((List.zipWith (fun a b : ℚ => b - a) prices prices.tail).map
          fun c => if 0 < c then 0 else -c).drop
            (((List.zipWith (fun a b : ℚ => b - a) prices prices.tail).map
              fun c => if 0 < c then 0 else -c).length - period)).sum : ℚ) = 0 := by
      apply List.sum_eq_zero
      intro x hx
      have hx2 := List.mem_of_mem_drop hx
      rw [List.mem_map] at hx2
      obtain ⟨c, hc, rfl⟩ := hx2
      have h0 := hall c hc
      split
      · rfl
      · rename_i hlt
        have : c = 0 := le_antisymm (le_of_not_lt hlt) h0
        rw [this, neg_zero]
    rw [if_pos (by rw [hzero, zero_div])]

/-- C7: `ensure_token` follows the claimed precedence: (1) a valid
in-memory token is returned without any issuance; (2) otherwise a
persisted token that loads from disk as still valid is returned without
issuance; (3) otherwise an in-memory token, even expired, is returned
without issuance; (4) an issuance request goes out exactly when
credentials are configured, no token is in memory and the disk holds no
still-valid token. -/
theorem ensure_token_precedence (has_credentials : Bool) (st : TokenState)
    (disk : Option DiskToken) (now : ℕ) (resp : IssueResponse) :
    (is_token_valid st now = true →
      (ensure_token has_credentials st disk now resp).issued = false ∧
      (ensure_token has_credentials st disk now resp).result =
        .ok (st.access_token.getD "")) ∧
    (is_token_valid st now = false → disk_valid disk now = true →
      (ensure_token has_credentials st disk now resp).issued = false ∧
      (ensure_token has_credentials st disk now resp).result =
        .ok ((load_token_from_file disk st now).1.getD "")) ∧
    (is_token_valid st now = false → disk_valid disk now = false →
      st.access_token.isSome = true →
      (ensure_token has_credentials st disk now resp).issued = false ∧
      (ensure_token has_credentials st disk now resp).result =
        .ok (st.access_token.getD "")) ∧
    ((ensure_token has_credentials st disk now resp).issued = true ↔
      has_credentials = true ∧ st.access_token = none ∧ disk_valid disk now = false) := by
  have key1 : is_token_valid st now = true →
      (ensure_token has_credentials st disk now resp).issued = false ∧
      (ensure_token has_credentials st disk now resp).result =
        .ok (st.access_token.getD "") := by
    intro hv
    have hs := valid_isSome st now hv
    constructor <;> simp [ensure_token, hv, hs]
  have key2 : is_token_valid st now = false → disk_valid disk now = true →
      (ensure_token has_credentials st disk now resp).issued = false ∧
      (ensure_token has_credentials st disk now resp).result =
        .ok ((load_token_from_file disk st now).1.getD "") := by
    intro hv hd
    rcases disk with _ | ⟨tok, vd⟩
    · simp [disk_valid] at hd
    · cases vd with
      | expiresAt v =>
        by_cases hnv : now < v
        · have hload : ∀ s : TokenState,
              load_token_from_file (some ⟨tok, .expiresAt v⟩) s now =
                (some tok, ⟨some tok, some v⟩) := by
            intro s
            simp [load_token_from_file, hnv]
          have hvd : is_token_valid ⟨some tok, some v⟩ now = true := by
            simp [is_token_valid, hnv]
          constructor <;> simp [ensure_token, hload, hvd, hv]
        · simp [disk_valid, hnv] at hd
      | badFormat => simp [disk_valid] at hd
      | missing => simp [disk_valid] at hd
  have key3 : is_token_valid st now = false → disk_valid disk now = false →
      st.access_token.isSome = true →
      (ensure_token has_credentials st disk now resp).issued = false ∧
      (ensure_token has_credentials st disk now resp).result =
        .ok (st.access_token.getD "") := by
    intro hv hd hs
    rcases disk with _ | ⟨tok, vd⟩
    · constructor <;> simp [ensure_token, load_token_from_file, hv, hs]
    · cases vd with
      | expiresAt v =>
        by_cases hnv : now < v
        · simp [disk_valid, hnv] at hd
        · constructor <;> simp [ensure_token, load_token_from_file, hv, hs, hnv]
      | badFormat => constructor <;> simp [ensure_token, load_token_from_file, hv, hs]
      | missing => constructor <;> simp [ensure_token, load_token_from_file, hv, hs]
  refine ⟨key1, key2, key3, ?_⟩
  by_cases hv : is_token_valid st now = true
  · have hs := valid_isSome st now hv
    rw [(key1 hv).1]
    constructor
    · intro h
      simp at h
    · rintro ⟨_, hn, _⟩
      rw [hn] at hs
      simp at hs
  · rw [Bool.not_eq_true] at hv
    by_cases hd : disk_valid disk now = true
    · rw [(key2 hv hd).1]
      constructor
      · intro h
        simp at h
      · rintro ⟨_, _, hdf⟩
        rw [hd] at hdf
        simp at hdf
    · rw [Bool.not_eq_true] at hd
      by_cases hm : st.access_token.isSome = true
      · rw [(key3 hv hd hm).1]
        constructor
        · intro h
          simp at h
        · rintro ⟨_, hn, _⟩
          rw [hn] at hm
          simp at hm
      · obtain ⟨a, e⟩ := st
        cases a with
        | some t => simp at hm
        | none =>
          simp only [hd, and_true, true_and]
          rcases disk with _ | ⟨tok, vd⟩
          · cases has_credentials <;> cases resp <;>
              simp [ensure_token, get_access_token, load_token_from_file, is_token_valid]
          · cases vd with
            | expiresAt v =>
              have hnv : ¬ now < v := by
                intro hc
                simp [disk_valid, hc] at hd
              cases has_credentials <;> cases resp <;>
                simp [ensure_token, get_access_token, load_token_from_file,
                  is_token_valid, hnv]
            | badFormat =>
              cases has_credentials <;> cases resp <;>
                simp [ensure_token, get_access_token, load_token_from_file, is_token_valid]
            | missing =>
              cases has_credentials <;> cases resp <;>
                simp [ensure_token, get_access_token, load_token_from_file, is_token_valid]

/-- C8: on an actual issuance attempt, the rate-limit 403 is recovered by
returning the loadable file token when one exists, else the in-memory
token when one exists (even expired), and raises the rate-limit error
exactly when no reusable token exists anywhere; the invalid-credentials
403 always raises the credential error, which is a distinct error from
the rate-limit one. -/
theorem issuance_rate_limit_classification (st : TokenState) (disk : Option DiskToken)
    (now : ℕ) :
    (∀ t, (get_access_token true st disk now .rateLimited403).issued = true →
      (load_token_from_file disk st now).1 = some t →
      (get_access_token true st disk now .rateLimited403).result = .ok t) ∧
    (∀ t, (get_access_token true st disk now .rateLimited403).issued = true →
      (load_token_from_file disk st now).1 = none → st.access_token = some t →
      (get_access_token true st disk now .rateLimited403).result = .ok t) ∧
    ((get_access_token true st disk now .rateLimited403).issued = true →
      (load_token_from_file disk st now).1 = none → st.access_token = none →
      (get_access_token true st disk now .rateLimited403).result = .error .rateLimited) ∧
    ((get_access_token true st disk now .invalidCredentials403).issued = true →
      (get_access_token true st disk now .invalidCredentials403).result =
        .error .authFailed) ∧
    TokenError.rateLimited ≠ TokenError.authFailed := by
  obtain ⟨a, e⟩ := st
  rcases disk with _ | ⟨tok, vd⟩
  · have hload : ∀ s : TokenState, load_token_from_file none s now = (none, s) := by
      intro s
      simp [load_token_from_file]
    refine ⟨?_, ?_, ?_, ?_, ?_⟩ <;> intros <;> simp_all [get_access_token, hload]
  · cases vd with
    | expiresAt v =>
      by_cases hnv : now < v
      · have hload : ∀ s : TokenState,
            load_token_from_file (some ⟨tok, .expiresAt v⟩) s now =
              (some tok, ⟨some tok, some v⟩) := by
          intro s
          simp [load_token_from_file, hnv]
        have hvd : is_token_valid ⟨some tok, some v⟩ now = true := by
          simp [is_token_valid, hnv]
        refine ⟨?_, ?_, ?_, ?_, ?_⟩ <;> intros <;>
          simp_all [get_access_token, hload, hvd]
      · have hload : ∀ s : TokenState,
            load_token_from_file (some ⟨tok, .expiresAt v⟩) s now = (none, s) := by
          intro s
          simp [load_token_from_file, hnv]
        refine ⟨?_, ?_, ?_, ?_, ?_⟩ <;> intros <;> simp_all [get_access_token, hload]
    | badFormat =>
      have hload : ∀ s : TokenState,
          load_token_from_file (some ⟨tok, .badFormat⟩) s now = (none, s) := by
        intro s
        simp [load_token_from_file]
      refine ⟨?_, ?_, ?_, ?_, ?_⟩ <;> intros <;> simp_all [get_access_token, hload]
    | missing =>
      have hload : ∀ s : TokenState,
          load_token_from_file (some ⟨tok, .missing⟩) s now = (some tok, s) := by
        intro s
        simp [load_token_from_file]
      cases a with
      | none =>
        refine ⟨?_, ?_, ?_, ?_, ?_⟩ <;> intros <;>
          simp_all [get_access_token, hload, is_token_valid]
      | some ta =>
        cases e with
        | none =>
          refine ⟨?_, ?_, ?_, ?_, ?_⟩ <;> intros <;>
            simp_all [get_access_token, hload, is_token_valid]
        | some te =>
          by_cases hne : now < te
          · have hvm : is_token_valid ⟨some ta, some te⟩ now = true := by
              simp [is_token_valid, hne]
            refine ⟨?_, ?_, ?_, ?_, ?_⟩ <;> intros <;>
              simp_all [get_access_token, hload, hvm]
          · have hvm : is_token_valid ⟨some ta, some te⟩ now = false := by
              simp [is_token_valid, hne]
            refine ⟨?_, ?_, ?_, ?_, ?_⟩ <;> intros <;>
              simp_all [get_access_token, hload, hvm]

/-- Witness for C9 at `period = 2` and the increasing prices 1, 2, 3. -/
theorem rsi_bounds_and_saturation_witness :
    ((0 ≤ calculate_rsi 2 [1, 2, 3] ∧ calculate_rsi 2 [1, 2, 3] ≤ 100) ∧
      (([1, 2, 3] : List ℚ).Chain' (· ≤ ·) → 2 + 1 ≤ ([1, 2, 3] : List ℚ).length →
        calculate_rsi 2 [1, 2, 3] = 100)) :=
  rsi_bounds_and_saturation 2 [1, 2, 3] (by norm_num)

end AIStock
